import Mathlib

/-!
Verification development for the smart-home energy monitoring backend.

The definitions below are shallow embeddings of the Python sources:
  * `backend/app/ai/orchestrator.py`   (rank / device / time extraction)
  * `backend/app/ai/service.py`        (follow-up merge, energy dispatch)
  * `backend/app/ai/energy_service.py` (rank computation, device keyword)
  * `backend/app/ai/data/energy_repository.py` and
    `backend/app/telemetry/service.py` (step-hold power integration SQL)
  * `backend/app/ai/memory.py`         (follow-up state)

Machine reals in the source are modelled as `Rat`; timestamps as integer
microseconds; Python regular-expression searches over the (lowercased,
ASCII) utterances are modelled by explicit scanning functions.
-/

namespace EnergyApp

/-! ### Word-boundary matching

Python's `re` module on ASCII text: a word char is `[a-zA-Z0-9_]`, `\b`
is a transition between word and non-word (or a string edge), `\s` is
ASCII whitespace.  `wordOccurs w s` is `re.search(r"\b" + w + r"\b", s)`
for a literal word `w`; `containsSub` is Python's substring `in`. -/

def isWordChar (c : Char) : Bool := c.isAlphanum || c == '_'

def isWsChar (c : Char) : Bool :=
  c == ' ' || c == '\t' || c == '\n' || c == '\r' || c == '\x0b' || c == '\x0c'

/-- Boundary on the left of a match position: start of string or a
non-word character right before. -/
def boundaryBefore : Option Char → Bool
  | none => true
  | some c => !isWordChar c

/-- Boundary on the right: end of string or a non-word character next. -/
def boundaryAfter : List Char → Bool
  | [] => true
  | c :: _ => !isWordChar c

/-- The literal word `w` matches at this position with `\b` on both sides. -/
def wholeWordAt (w : List Char) (prev : Option Char) (s : List Char) : Bool :=
  boundaryBefore prev && w.isPrefixOf s && boundaryAfter (s.drop w.length)

def wordSearchFrom (w : List Char) : Option Char → List Char → Bool
  | prev, [] => wholeWordAt w prev []
  | prev, c :: rest => wholeWordAt w prev (c :: rest) || wordSearchFrom w (some c) rest

/-- `re.search(r"\bw\b", s) is not None` for a literal word `w`. -/
def wordOccurs (w s : String) : Bool := wordSearchFrom w.data none s.data

def substrSearch (w : List Char) : List Char → Bool
  | [] => w.isPrefixOf []
  | c :: rest => w.isPrefixOf (c :: rest) || substrSearch w rest

/-- Python's `w in s` substring test. -/
def containsSub (w s : String) : Bool := substrSearch w.data s.data

/-- Python's `str.lower()` (ASCII inputs). -/
def pyLower (s : String) : String := ⟨s.data.map Char.toLower⟩

/-- Python's `str.strip()` (ASCII whitespace). -/
def pyStrip (s : String) : String :=
  ⟨((s.data.dropWhile isWsChar).reverse.dropWhile isWsChar).reverse⟩

def digitsToNat (ds : List Char) : Nat :=
  ds.foldl (fun n c => n * 10 + (c.toNat - ('0').toNat)) 0

/-! ### Rank extraction — `Orchestrator._extract_rank`

Source (`orchestrator.py`):
  1. rank type via `re.search(r"\b(highest|top|most)\b")` else
     `re.search(r"\b(lowest|least)\b")`;
  2. rank number via the combined pattern
     `\b(?:(first|1st)|(second|2nd)|(third|3rd)|(fourth|4th)|(fifth|5th)|(\d+)(?:st|nd|rd|th)?)\s+(?:highest|lowest|top|most|least|device|consumer|usage|burner)\b`,
     with the rank type inferred from the matched text when unset;
  3. a rank type found with no number defaults the number to 1. -/

def rankHighWords : List String := ["highest", "top", "most"]
def rankLowWords : List String := ["lowest", "least"]

def rankTailKeywords : List String :=
  ["highest", "lowest", "top", "most", "least", "device", "consumer", "usage", "burner"]

def ordAlts : List (String × Nat) :=
  [("first", 1), ("1st", 1), ("second", 2), ("2nd", 2), ("third", 3), ("3rd", 3),
   ("fourth", 4), ("4th", 4), ("fifth", 5), ("5th", 5)]

def ordSuffixes : List String := ["st", "nd", "rd", "th"]

/-- `\s+`: require at least one whitespace char; return (consumed, rest).
Greedy consumption is equivalent here because every tail keyword starts
with a letter. -/
def wsSplit1 : List Char → Option (List Char × List Char)
  | [] => none
  | c :: rest =>
    if isWsChar c then some ((c :: rest).takeWhile isWsChar, (c :: rest).dropWhile isWsChar)
    else none

/-- Match `(?:highest|lowest|...|burner)\b` at this position; returns the
keyword's characters. -/
def matchTailKeyword (s : List Char) : Option (List Char) :=
  rankTailKeywords.findSome? fun k =>
    if k.data.isPrefixOf s && boundaryAfter (s.drop k.data.length) then some k.data else none

/-- After `(\d+)`: `(?:st|nd|rd|th)?\s+(?:keyword)\b`; returns the
consumed characters (for `match.group(0)` reconstruction). -/
def afterNumTail (s : List Char) : Option (List Char) :=
  let withSuffix := ordSuffixes.findSome? fun suf =>
    if suf.data.isPrefixOf s then
      match wsSplit1 (s.drop suf.data.length) with
      | some (ws, rest) => (matchTailKeyword rest).map fun k => suf.data ++ ws ++ k
      | none => none
    else none
  match withSuffix with
  | some g => some g
  | none =>
    match wsSplit1 s with
    | some (ws, rest) => (matchTailKeyword rest).map fun k => ws ++ k
    | none => none

/-- Try the combined rank pattern at one position (with leading `\b`);
returns (rank number, `match.group(0)` characters). Alternatives are
tried in the regex's order: ordinal words first, then `\d+`. -/
def combinedAt (prev : Option Char) (s : List Char) : Option (Nat × List Char) :=
  if boundaryBefore prev then
    let wordAlt := ordAlts.findSome? fun p =>
      if p.1.data.isPrefixOf s then
        match wsSplit1 (s.drop p.1.data.length) with
        | some (ws, rest) => (matchTailKeyword rest).map fun k => (p.2, p.1.data ++ ws ++ k)
        | none => none
      else none
    match wordAlt with
    | some r => some r
    | none =>
      let ds := s.takeWhile Char.isDigit
      if ds.isEmpty then none
      else (afterNumTail (s.drop ds.length)).map fun tail => (digitsToNat ds, ds ++ tail)
  else none

/-- Leftmost search with the combined rank pattern (`re.search`). -/
def combinedSearch : Option Char → List Char → Option (Nat × List Char)
  | prev, [] => combinedAt prev []
  | prev, c :: rest =>
    match combinedAt prev (c :: rest) with
    | some r => some r
    | none => combinedSearch (some c) rest

/-- `Orchestrator._extract_rank` on the (lowercased) utterance text:
returns `(rank_type, rank_num)`. -/
def extract_rank (text : String) : Option String × Option Nat :=
  let rankType0 : Option String :=
    if rankHighWords.any (fun w => wordOccurs w text) then some "highest"
    else if rankLowWords.any (fun w => wordOccurs w text) then some "lowest"
    else none
  match combinedSearch none text.data with
  | some (n, g0) =>
    let g0s : String := ⟨g0⟩
    let rankType : Option String :=
      match rankType0 with
      | some r => some r
      | none =>
        if ["top", "most", "highest", "device", "consumer", "usage"].any
            (fun kw => containsSub kw g0s) then some "highest"
        else if ["least", "lowest"].any (fun kw => containsSub kw g0s) then some "lowest"
        else some "highest"
    (rankType, some n)
  | none =>
    match rankType0 with
    | some r => (some r, some 1)
    | none => (none, none)

/-! ### Device extraction — `Orchestrator._extract_devices`

Builds an alias table (Python dict, insertion-ordered with in-place
overwrite) from the known device display names, sorts the keys
longest-first (Python's stable `sorted(key=len, reverse=True)`, modelled
by the stable `List.insertionSort`), and collects every alias that
occurs word-boundary-anchored in the lowercased text. -/

/-- Python dict assignment `m[k] = v`: overwrite in place, else append. -/
def upsert (k v : String) : List (String × String) → List (String × String)
  | [] => [(k, v)]
  | (k2, v2) :: t => if k2 = k then (k, v) :: t else (k2, v2) :: upsert k v t

def lookupA (k : String) : List (String × String) → Option String
  | [] => none
  | (k2, v) :: t => if k2 = k then some v else lookupA k t

/-- One iteration of the alias-table construction loop for device `name`. -/
def addAliases (known : List String) (m : List (String × String)) (name : String) :
    List (String × String) :=
  let ln := pyLower name
  let m1 := upsert ln name m
  let m2 := if containsSub "ac" ln then upsert "ac" name m1 else m1
  let m3 := if containsSub "heater" ln then upsert "heater" name m2 else m2
  let m4 := if containsSub "fridge" ln then upsert "fridge" name m3 else m3
  let m5 := if containsSub "pc" ln then upsert "pc" name m4 else m4
  if containsSub "light" ln && containsSub "bedroom light" ln then upsert "light" name m5
  else if containsSub "light" ln then
    if (known.filter fun n2 => containsSub "light" (pyLower n2)).length = 1 then
      upsert "light" name m5
    else m5
  else m5

def deviceAliasMap (known : List String) : List (String × String) :=
  known.foldl (addAliases known) []

/-- Longest-alias-first order used for the key scan. -/
def longerFirst (a b : String) : Prop := b.length ≤ a.length

instance : DecidableRel longerFirst := fun a b =>
  inferInstanceAs (Decidable (b.length ≤ a.length))

instance : IsTotal String longerFirst :=
  ⟨fun a b => (le_total b.length a.length).imp (fun h => h) fun h => h⟩

instance : IsTrans String longerFirst :=
  ⟨fun _ _ _ hab hbc => le_trans hbc hab⟩

def sortedAliasKeys (known : List String) : List String :=
  ((deviceAliasMap known).map Prod.fst).insertionSort longerFirst

/-- `Orchestrator._extract_devices` (the Python `set` of matches is kept
as a duplicate-free list in scan order). -/
def extract_devices (text : String) (known : List String) : List String :=
  ((sortedAliasKeys known).filter fun k => wordOccurs k text).foldl
    (fun acc k =>
      match lookupA k (deviceAliasMap known) with
      | some v => if v ∈ acc then acc else acc ++ [v]
      | none => acc) []

/-! ### Time-window resolution — `Orchestrator._parse_time_range`

Local wall-clock time is modelled as integer microseconds `t` on a
linear local timeline; `datetime.replace(hour=0, minute=0, second=0,
microsecond=0)` is flooring to the day (`t - t % day`), and
`astimezone(timezone.utc)` subtracts the fixed zone offset (the
configured zone, Asia/Singapore, is DST-free; the offset is kept
abstract here).  `isoweekday` is derived from the Unix epoch being a
Thursday (ISO weekday 4). -/

def usPerDay : Int := 86400000000

def floorDay (t : Int) : Int := t - t % usPerDay

def isoWeekday (t : Int) : Int := (t / usPerDay + 3) % 7 + 1

structure TimeRangeParams where
  label : String
  startUtc : Int
  endUtc : Int
  granularity : String
  defaulted : Bool
deriving DecidableEq

/-- `Orchestrator._to_utc_range`. -/
def to_utc_range (label : String) (startLocal endLocal : Int) (granularity : String)
    (offset : Int) : TimeRangeParams :=
  { label := label, startUtc := startLocal - offset, endUtc := endLocal - offset,
    granularity := granularity, defaulted := false }

/-- The `today` branch: local midnight to local now. -/
def parseToday (now offset : Int) : TimeRangeParams :=
  to_utc_range "today" (floorDay now) now "hour" offset

/-- The `yesterday` branch: previous local day, `23:59:59.999999` end. -/
def parseYesterday (now offset : Int) : TimeRangeParams :=
  let y := now - usPerDay
  to_utc_range "yesterday" (floorDay y) (floorDay y + usPerDay - 1) "hour" offset

/-- The `this week` branch: Monday midnight of the current ISO week. -/
def parseThisWeek (now offset : Int) : TimeRangeParams :=
  to_utc_range "this_week_so_far" (floorDay (now - (isoWeekday now - 1) * usPerDay)) now
    "day" offset

/-- The `last/past week` and `last/past 7 days` branches. -/
def parseLast7Days (now offset : Int) : TimeRangeParams :=
  to_utc_range "last_7_days" (now - 7 * usPerDay) now "day" offset

/-! ### Data model — `orchestrator.py`, `memory.py`

`ParsedSlots.devices` is `Option (List String)` because
`AIService._handle_follow_up` may overwrite the orchestrator's list with
Python `None`; emptiness (`None` or `[]`, both falsy) is `devicesFalsy`. -/

inductive RouteIntent
  | energy | smalltalk | general | summary | unsure
deriving DecidableEq

inductive EnergyQueryType
  | total_usage | device_usage | ranked_devices | unknown_energy_query
deriving DecidableEq

structure ParsedSlots where
  time : Option TimeRangeParams
  devices : Option (List String)
  rank : Option String
  rankNum : Option Nat
  summaryRequest : Bool
  energyQueryType : Option EnergyQueryType
deriving DecidableEq

structure Decision where
  intent : RouteIntent
  parsed : ParsedSlots
  userText : String
  confidence : Rat
deriving DecidableEq

/-- `memory.RankedDevice`. -/
structure RankedDevice where
  deviceId : String
  kwh : Rat
  name : Option String
deriving DecidableEq

/-- `memory.FollowUpState` (the `ts` freshness field is modelled by
passing `Option FollowUpState`, the result of `get_if_fresh`). -/
structure FollowUpState where
  intent : String
  devices : List String
  rank : Option String
  rankNum : Option Nat
  rankedDevices : List RankedDevice
  timeContext : Option TimeRangeParams
deriving DecidableEq

/-- Python falsiness of the devices slot (`None` or `[]`). -/
def devicesFalsy : Option (List String) → Bool
  | none => true
  | some l => l.isEmpty

/-! ### Follow-up merge — `AIService._handle_follow_up`

`mem` is `self.mem.followups.get_if_fresh(user_id)`. -/

def handle_follow_up (mem : Option FollowUpState) (d : Decision) : Decision :=
  match mem with
  | none => d
  | some st =>
    if d.intent ≠ RouteIntent.energy ∧ d.intent ≠ RouteIntent.summary then d
    else if d.intent = RouteIntent.summary then d
    else
      let p0 := d.parsed
      let p1 := if p0.time = none ∧ st.timeContext ≠ none then
          { p0 with time := st.timeContext } else p0
      let p2 :=
        if p1.energyQueryType = some EnergyQueryType.ranked_devices then
          if devicesFalsy p1.devices then { p1 with devices := none } else p1
        else if devicesFalsy p1.devices ∧ st.devices ≠ [] then
          { p1 with devices := some st.devices }
        else p1
      { d with parsed := p2 }

/-! ### Energy dispatch slot checks — `AIService._dispatch_energy_query` -/

inductive EnergyDispatch
  | clarifyTotalTime | clarifyDeviceTime | clarifyDeviceWhich
  | clarifyRankTime | clarifyRankKind
  | runTotalUsage | runDeviceUsage | runRanked | fallbackGeneral
deriving DecidableEq

def dispatch_energy_query (p : ParsedSlots) : EnergyDispatch :=
  if p.energyQueryType = some EnergyQueryType.total_usage then
    if p.time = none then .clarifyTotalTime else .runTotalUsage
  else if p.energyQueryType = some EnergyQueryType.device_usage then
    if p.time = none then .clarifyDeviceTime
    else if devicesFalsy p.devices then .clarifyDeviceWhich
    else .runDeviceUsage
  else if p.energyQueryType = some EnergyQueryType.ranked_devices then
    if p.time = none then .clarifyRankTime
    else if p.rank = none ∧ p.rankNum = none then .clarifyRankKind
    else .runRanked
  else .fallbackGeneral

/-! ### Device keyword normalization and the repository's ILIKE filter

`energy_service._normalize_device_keyword` and the
`d.name ILIKE :device_pattern` (`%keyword%`) filter of
`EnergyRepository.get_energy_usage`. -/

def normalize_device_keyword (devs : List String) : String :=
  match devs with
  | [] => "all"
  | d0 :: _ =>
    let d := pyLower (pyStrip d0)
    if d = "all" ∨ d = "" then "all"
    else if d = "aircon" ∨ d = "air con" ∨ d = "air conditioner" ∨ d = "a/c" then "ac"
    else d

/-- `name ILIKE '%kw%'`: case-insensitive substring. -/
def ilikeContains (kw name : String) : Bool :=
  substrSearch (pyLower kw).data (pyLower name).data

/-- The repository applies the ILIKE filter only when
`device_name and device_name.lower() != "all"`. -/
def applyDeviceFilter (deviceName : String) (names : List String) : List String :=
  if deviceName ≠ "" ∧ pyLower deviceName ≠ "all" then
    names.filter fun n => ilikeContains deviceName n
  else names

/-! ### Step-hold integration — the SQL of
`EnergyRepository.get_energy_usage` / `_rank_device` and
`telemetry.service.get_device_energy_summary`

Per device stream ordered by timestamp, each row contributes
`COALESCE(prev_w, power_w) * GREATEST(0, LEAST(max_gap, COALESCE(delta_s, 0))) / 3600`
where `prev_w`/`prev_ts` are `LAG` values (the previous sample) and
`delta_s` the elapsed seconds.  Samples are `(timestamp seconds, power W)`. -/

def DEFAULT_MAX_GAP_SECONDS : Rat := 15 * 60

def clampGap (maxGap dt : Rat) : Rat := max 0 (min maxGap dt)

def integrateRows (maxGap : Rat) : Option (Rat × Rat) → List (Rat × Rat) → Rat
  | _, [] => 0
  | prev, (t, p) :: rest =>
    let pw : Rat := match prev with | none => p | some pr => pr.2
    let ds : Rat := match prev with | none => 0 | some pr => t - pr.1
    pw * clampGap maxGap ds / 3600 + integrateRows maxGap (some (t, p)) rest

/-- Integrated energy (Wh) of one device's time-ordered sample stream. -/
def streamEnergyWh (maxGap : Rat) (samples : List (Rat × Rat)) : Rat :=
  integrateRows maxGap none samples

/-- Modelled from the spec: `energy_wh = Σ prior_power_w × clamp(Δt, 0,
max_gap) / 3600` over consecutive sample pairs, the first sample
contributing zero.  Stated for refinement comparison with
`streamEnergyWh`. -/
def specStepHoldWh (maxGap : Rat) : List (Rat × Rat) → Rat
  | (t0, p0) :: (t1, p1) :: rest =>
    p0 * clampGap maxGap (t1 - t0) / 3600 + specStepHoldWh maxGap ((t1, p1) :: rest)
  | _ => 0

/-! ### Rank computation — `EnergyQueryProcessor._compute_rank_from_usage`

Rows are the per-bucket rows returned by
`EnergyRepository.get_energy_usage(device_name="all", ...)`.  The
processor aggregates per device (Python `dict.setdefault`: insertion
order, `+=` accumulation, rows with a falsy `device_id` skipped), sorts
by window total (`sorted(..., key=energy, reverse=(direction=="desc"))`,
a stable sort modelled by the stable `List.insertionSort`), reports the
FIRST element of the sorted order, and builds the top-3 comparison with
percentages over the grand total of ALL aggregated devices. -/

structure BucketRow where
  deviceId : String
  deviceName : String
  timePeriod : String
  totalEnergyWh : Rat
  avgPowerW : Rat
  dataPoints : Nat
deriving DecidableEq

structure DevAgg where
  deviceId : String
  deviceName : String
  totalEnergyWh : Rat
  avgPowerAcc : Rat
  points : Nat
deriving DecidableEq

def addRow (acc : List DevAgg) (r : BucketRow) : List DevAgg :=
  if r.deviceId = "" then acc
  else if acc.any fun a => a.deviceId = r.deviceId then
    acc.map fun a =>
      if a.deviceId = r.deviceId then
        { a with totalEnergyWh := a.totalEnergyWh + r.totalEnergyWh,
                 avgPowerAcc := a.avgPowerAcc + r.avgPowerW * (r.dataPoints : Rat),
                 points := a.points + r.dataPoints }
      else a
  else
    acc ++ [{ deviceId := r.deviceId, deviceName := r.deviceName,
              totalEnergyWh := r.totalEnergyWh,
              avgPowerAcc := r.avgPowerW * (r.dataPoints : Rat),
              points := r.dataPoints }]

def aggregateRows (rows : List BucketRow) : List DevAgg :=
  rows.foldl addRow []

/-- Descending by window energy (`reverse=True`). -/
def descByEnergy (a b : DevAgg) : Prop := b.totalEnergyWh ≤ a.totalEnergyWh

/-- Ascending by window energy. -/
def ascByEnergy (a b : DevAgg) : Prop := a.totalEnergyWh ≤ b.totalEnergyWh

instance : DecidableRel descByEnergy := fun a b =>
  inferInstanceAs (Decidable (b.totalEnergyWh ≤ a.totalEnergyWh))

instance : DecidableRel ascByEnergy := fun a b =>
  inferInstanceAs (Decidable (a.totalEnergyWh ≤ b.totalEnergyWh))

instance : IsTotal DevAgg descByEnergy :=
  ⟨fun a b => (le_total b.totalEnergyWh a.totalEnergyWh).imp (fun h => h) fun h => h⟩

instance : IsTotal DevAgg ascByEnergy :=
  ⟨fun a b => le_total a.totalEnergyWh b.totalEnergyWh⟩

instance : IsTrans DevAgg descByEnergy :=
  ⟨fun _ _ _ hab hbc => le_trans hbc hab⟩

instance : IsTrans DevAgg ascByEnergy :=
  ⟨fun _ _ _ hab hbc => le_trans hab hbc⟩

/-- `sorted(agg.values(), key=energy, reverse=(direction == "desc"))`. -/
def sortDevs (descDir : Bool) (l : List DevAgg) : List DevAgg :=
  if descDir then l.insertionSort descByEnergy else l.insertionSort ascByEnergy

structure ComparisonEntry where
  deviceName : String
  totalEnergyWh : Rat
  percentage : Rat
deriving DecidableEq

structure RankResult where
  deviceId : String
  deviceName : String
  totalEnergyWh : Rat
  avgPowerW : Rat
  percentageOfTotal : Rat
  comparison : List ComparisonEntry
deriving DecidableEq

/-- Grand total over all aggregated devices
(`total_energy = sum(d["total_energy_wh"] for d in sorted_devs)`). -/
def fleetTotalWh (descDir : Bool) (rows : List BucketRow) : Rat :=
  ((sortDevs descDir (aggregateRows rows)).map fun d => d.totalEnergyWh).sum

def compute_rank_from_usage (descDir : Bool) (rows : List BucketRow) : Option RankResult :=
  let agg := aggregateRows rows
  if agg.isEmpty then none
  else
    match sortDevs descDir agg with
    | [] => none
    | best :: restS =>
      let sorted := best :: restS
      let totalEnergy := (sorted.map fun d => d.totalEnergyWh).sum
      let pct : DevAgg → Rat := fun d =>
        if 0 < totalEnergy then d.totalEnergyWh / totalEnergy * 100 else 0
      some
        { deviceId := best.deviceId
          deviceName := best.deviceName
          totalEnergyWh := best.totalEnergyWh
          avgPowerW := best.avgPowerAcc / (max 1 best.points : Nat)
          percentageOfTotal := pct best
          comparison := (sorted.take 3).map fun d =>
            { deviceName := d.deviceName, totalEnergyWh := d.totalEnergyWh,
              percentage := pct d } }

/-! ### Ranked-devices dispatch — `AIService._handle_ranked_devices_query`

Memory fulfillment first: only when the current turn carries a
`rank_num`, the fresh state stems from a `rank` query with a non-empty
stored ranking, and the time and device context are unchanged (Python
`==`; a `None` devices slot never equals the stored list).  In bounds,
the stored element at `rank_num - 1` is reported; otherwise the handler
falls back to the processor, which reports the first element of the
sorted order.  The result is `(display name, kWh)`; `none` models the
non-ranked paths. -/

def isPureRankFollowUp (p : ParsedSlots) (mem : Option FollowUpState) : Bool :=
  match p.rankNum, mem with
  | some _, some st =>
    decide (st.rankedDevices ≠ []) && decide (st.intent = "rank") &&
    decide (p.time = st.timeContext) && decide (p.devices = some st.devices)
  | _, _ => false

def handle_ranked_devices_query (p : ParsedSlots) (mem : Option FollowUpState)
    (rows : List BucketRow) : Option (String × Rat) :=
  let memResult : Option (String × Rat) :=
    match p.rankNum, mem with
    | some n, some st =>
      if isPureRankFollowUp p mem then
        if 0 ≤ (n : Int) - 1 ∧ (n : Int) - 1 < (st.rankedDevices.length : Int) then
          match st.rankedDevices.get? (n - 1) with
          | some tgt => some (tgt.name.getD tgt.deviceId, tgt.kwh)
          | none => none
        else none
      else none
    | _, _ => none
  match memResult with
  | some r => some r
  | none =>
    if p.rank = some "highest" ∨ p.rank = some "lowest" then
      (compute_rank_from_usage (decide (p.rank = some "highest")) rows).map
        fun rk => (rk.deviceName, rk.totalEnergyWh / 1000)
    else none

/-! ## Supporting lemmas -/

theorem clampGap_zero (g : Rat) : clampGap g 0 = 0 := by
  unfold clampGap
  exact max_eq_left (min_le_right g 0)

theorem integrateRows_eq_spec (g : Rat) (pr : Rat × Rat) (l : List (Rat × Rat)) :
    integrateRows g (some pr) l = specStepHoldWh g (pr :: l) := by
  induction l generalizing pr with
  | nil => simp [integrateRows, specStepHoldWh]
  | cons x rest ih =>
    obtain ⟨t, p⟩ := x
    obtain ⟨pt, pp⟩ := pr
    simp only [integrateRows, specStepHoldWh]
    rw [ih]

/-! ## Claim theorems -/

/-- Claim C2: per-device step-hold integration.  The SQL integration
(`streamEnergyWh`, from the `LAG`/`GREATEST`/`LEAST` query shared by
`EnergyRepository.get_energy_usage`, `_rank_device` and
`telemetry.service.get_device_energy_summary`) equals the spec's sum of
`prior_power_w × clamp(Δt, 0, max_gap) / 3600` over consecutive sample
pairs; the first sample of a stream contributes zero; the default gap
cap is 900 s; 100 W held for 10 minutes gives `100·600/3600 = 50/3 ≈
16.667` Wh; a 60-minute gap under a 15-minute cap contributes only 15
minutes of energy (`100·900/3600 = 25` Wh). -/
theorem step_hold_integration_spec :
    (∀ (maxGap : Rat) (samples : List (Rat × Rat)),
        streamEnergyWh maxGap samples = specStepHoldWh maxGap samples)
    ∧ (∀ maxGap t p : Rat, streamEnergyWh maxGap [(t, p)] = 0)
    ∧ DEFAULT_MAX_GAP_SECONDS = 900
    ∧ streamEnergyWh DEFAULT_MAX_GAP_SECONDS [(0, 100), (600, 200)] = 100 * 600 / 3600
    ∧ (100 * 600 / 3600 : Rat) = 50 / 3
    ∧ streamEnergyWh DEFAULT_MAX_GAP_SECONDS [(0, 100), (3600, 80)] = 100 * 900 / 3600 := by
  refine ⟨?_, ?_, by norm_num [DEFAULT_MAX_GAP_SECONDS], ?_, by norm_num, ?_⟩
  · intro g samples
    cases samples with
    | nil => simp [streamEnergyWh, integrateRows, specStepHoldWh]
    | cons x rest =>
      obtain ⟨t, p⟩ := x
      simp only [streamEnergyWh, integrateRows]
      rw [integrateRows_eq_spec, clampGap_zero]
      ring_nf
  · intro g t p
    simp [streamEnergyWh, integrateRows, clampGap_zero]
  · norm_num [streamEnergyWh, integrateRows, clampGap, DEFAULT_MAX_GAP_SECONDS,
      min_def, max_def]
  · norm_num [streamEnergyWh, integrateRows, clampGap, DEFAULT_MAX_GAP_SECONDS,
      min_def, max_def]

/-- Claim C8: every window produced by the `today`, `yesterday`,
`this week` and `last/past (7 days|week)` branches of
`Orchestrator._parse_time_range` satisfies `start ≤ end ≤ now` after
conversion to UTC, for every local clock value and zone offset. -/
theorem time_window_invariant (now offset : Int) :
    ((parseToday now offset).startUtc ≤ (parseToday now offset).endUtc
      ∧ (parseToday now offset).endUtc ≤ now - offset)
    ∧ ((parseYesterday now offset).startUtc ≤ (parseYesterday now offset).endUtc
      ∧ (parseYesterday now offset).endUtc ≤ now - offset)
    ∧ ((parseThisWeek now offset).startUtc ≤ (parseThisWeek now offset).endUtc
      ∧ (parseThisWeek now offset).endUtc ≤ now - offset)
    ∧ ((parseLast7Days now offset).startUtc ≤ (parseLast7Days now offset).endUtc
      ∧ (parseLast7Days now offset).endUtc ≤ now - offset) := by
  unfold parseToday parseYesterday parseThisWeek parseLast7Days to_utc_range floorDay
    isoWeekday usPerDay
  simp only
  omega

/-- Claim C5: the memory-merge step (`AIService._handle_follow_up`)
never changes the rank or rank-number slots (nor the query type, the
summary flag, the intent or the utterance): only the time and devices
slots may be filled from memory. -/
theorem followup_rank_frame (mem : Option FollowUpState) (d : Decision) :
    (handle_follow_up mem d).parsed.rank = d.parsed.rank
    ∧ (handle_follow_up mem d).parsed.rankNum = d.parsed.rankNum
    ∧ (handle_follow_up mem d).parsed.energyQueryType = d.parsed.energyQueryType
    ∧ (handle_follow_up mem d).parsed.summaryRequest = d.parsed.summaryRequest
    ∧ (handle_follow_up mem d).intent = d.intent
    ∧ (handle_follow_up mem d).userText = d.userText := by
  cases mem with
  | none => simp [handle_follow_up]
  | some st =>
    simp only [handle_follow_up]
    split_ifs <;> simp_all

/-- Claim C1: for an ENERGY turn merged against fresh follow-up state,
a RANKED_DEVICES query whose current turn named no device gets its
device slot forced to `None` (full-fleet ranking) even if the stored
state carries a device filter, while TOTAL_USAGE / DEVICE_USAGE queries
with an empty current-turn device slot inherit the stored device set. -/
theorem followup_ranked_forces_full_fleet (st : FollowUpState) (d : Decision)
    (hE : d.intent = RouteIntent.energy) :
    (d.parsed.energyQueryType = some EnergyQueryType.ranked_devices →
        devicesFalsy d.parsed.devices = true →
        (handle_follow_up (some st) d).parsed.devices = none)
    ∧ ((d.parsed.energyQueryType = some EnergyQueryType.total_usage
          ∨ d.parsed.energyQueryType = some EnergyQueryType.device_usage) →
        devicesFalsy d.parsed.devices = true → st.devices ≠ [] →
        (handle_follow_up (some st) d).parsed.devices = some st.devices) := by
  constructor
  · intro hq hdev
    simp only [handle_follow_up, hE]
    split_ifs <;> simp_all
  · intro hq hdev hmem
    simp only [handle_follow_up, hE]
    rcases hq with hq | hq <;> split_ifs <;> simp_all

/-- Witness for C1: the spec's regression scenario — turn A stored
`devices=["AC"], rank="highest"`, turn B is `"2nd highest?"` with no
device mention, so the merged devices slot is forced empty; and a plain
TOTAL_USAGE follow-up with no device mention inherits `["AC"]`. -/
theorem followup_ranked_forces_full_fleet_witness :
    (handle_follow_up
        (some { intent := "rank", devices := ["AC"], rank := some "highest",
                rankNum := some 1, rankedDevices := [],
                timeContext := some ⟨"today", 0, 1, "hour", false⟩ })
        { intent := RouteIntent.energy,
          parsed := { time := none, devices := some [], rank := some "highest",
                      rankNum := some 2, summaryRequest := false,
                      energyQueryType := some EnergyQueryType.ranked_devices },
          userText := "2nd highest?", confidence := 95 / 100 }).parsed.devices = none
    ∧ (handle_follow_up
        (some { intent := "usage", devices := ["AC"], rank := none,
                rankNum := none, rankedDevices := [],
                timeContext := some ⟨"today", 0, 1, "hour", false⟩ })
        { intent := RouteIntent.energy,
          parsed := { time := none, devices := some [], rank := none,
                      rankNum := none, summaryRequest := false,
                      energyQueryType := some EnergyQueryType.total_usage },
          userText := "how much energy?", confidence := 85 / 100 }).parsed.devices
      = some ["AC"] := by
  constructor
  · exact (followup_ranked_forces_full_fleet _ _ rfl).1 rfl (by decide)
  · exact (followup_ranked_forces_full_fleet _ _ rfl).2 (Or.inl rfl) (by decide) (by decide)

/-- Claim C9: `AIService._dispatch_energy_query` returns targeted
clarifications instead of aggregating when required slots are missing:
TOTAL_USAGE without a time window asks for a time period; DEVICE_USAGE
missing the time window or the device set asks for that specific slot. -/
theorem dispatch_clarifications (p : ParsedSlots) :
    (p.energyQueryType = some EnergyQueryType.total_usage → p.time = none →
        dispatch_energy_query p = EnergyDispatch.clarifyTotalTime)
    ∧ (p.energyQueryType = some EnergyQueryType.device_usage → p.time = none →
        dispatch_energy_query p = EnergyDispatch.clarifyDeviceTime)
    ∧ (p.energyQueryType = some EnergyQueryType.device_usage → p.time ≠ none →
        devicesFalsy p.devices = true →
        dispatch_energy_query p = EnergyDispatch.clarifyDeviceWhich) := by
    refine ⟨fun h1 h2 => ?_, fun h1 h2 => ?_, fun h1 h2 h3 => ?_⟩
    · simp [dispatch_energy_query, h1, h2]
    · simp [dispatch_energy_query, h1, h2]
    · simp [dispatch_energy_query, h1, h2, h3]

/-- Witness for C9: concrete under-specified queries hit each
clarification branch. -/
theorem dispatch_clarifications_witness :
    dispatch_energy_query
        { time := none, devices := some [], rank := none, rankNum := none,
          summaryRequest := false,
          energyQueryType := some EnergyQueryType.total_usage }
      = EnergyDispatch.clarifyTotalTime
    ∧ dispatch_energy_query
        { time := none, devices := some ["AC"], rank := none, rankNum := none,
          summaryRequest := false,
          energyQueryType := some EnergyQueryType.device_usage }
      = EnergyDispatch.clarifyDeviceTime
    ∧ dispatch_energy_query
        { time := some ⟨"today", 0, 1, "hour", false⟩, devices := some [],
          rank := none, rankNum := none, summaryRequest := false,
          energyQueryType := some EnergyQueryType.device_usage }
      = EnergyDispatch.clarifyDeviceWhich := by
  refine ⟨(dispatch_clarifications _).1 rfl rfl, (dispatch_clarifications _).2.1 rfl rfl,
    (dispatch_clarifications _).2.2 rfl (by decide) (by decide)⟩

/-- Claim C10 (implicit): aggregation uses only the FIRST element of a
non-empty merged device set as its keyword
(`energy_service._normalize_device_keyword`), an empty set normalizes to
`"all"` meaning no filter, and the repository applies the keyword as a
case-insensitive substring filter (`ILIKE '%keyword%'`) on display
names. -/
theorem device_filter_first_only_ilike :
    (∀ (d0 : String) (rest : List String),
        normalize_device_keyword (d0 :: rest) = normalize_device_keyword [d0])
    ∧ normalize_device_keyword [] = "all"
    ∧ (∀ names : List String, applyDeviceFilter "all" names = names)
    ∧ (∀ (kw : String) (names : List String) (n : String),
        kw ≠ "" → pyLower kw ≠ "all" →
        (n ∈ applyDeviceFilter kw names ↔ n ∈ names ∧ ilikeContains kw n = true))
    ∧ ilikeContains "ac" "Living Room AC" = true
    ∧ ilikeContains "ac" "Black Cat Lamp" = true
    ∧ normalize_device_keyword ["  AC ", "Heater"] = "ac"
    ∧ normalize_device_keyword ["Aircon"] = "ac" := by
  refine ⟨fun d0 rest => rfl, rfl, ?_, ?_, by decide, by decide, by decide, by decide⟩
  · intro names
    rw [applyDeviceFilter, if_neg]
    intro h
    exact h.2 (by decide)
  · intro kw names n h1 h2
    rw [applyDeviceFilter, if_pos ⟨h1, h2⟩]
    simp [List.mem_filter]

/-- Witness for C10: the substring (ILIKE) membership characterization at
a concrete keyword and fleet. -/
theorem device_filter_first_only_ilike_witness :
    ("Living Room AC" ∈ applyDeviceFilter "ac" ["Living Room AC", "Heater"]
      ↔ "Living Room AC" ∈ ["Living Room AC", "Heater"]
          ∧ ilikeContains "ac" "Living Room AC" = true) :=
  device_filter_first_only_ilike.2.2.2.1 "ac" ["Living Room AC", "Heater"]
    "Living Room AC" (by decide) (by decide)

theorem lookupA_some_mem_keys {k v : String} {m : List (String × String)}
    (h : lookupA k m = some v) : k ∈ m.map Prod.fst := by
  induction m with
  | nil => simp [lookupA] at h
  | cons p t ih =>
    obtain ⟨k2, v2⟩ := p
    by_cases hk : k2 = k
    · subst hk
      simp
    · simp only [lookupA, if_neg hk] at h
      simp only [List.map_cons, List.mem_cons]
      exact Or.inr (ih h)

theorem mem_devFold (m : List (String × String)) (ks : List String) (acc : List String)
    (d : String) :
    d ∈ ks.foldl (fun acc k =>
        match lookupA k m with
        | some v => if v ∈ acc then acc else acc ++ [v]
        | none => acc) acc
      ↔ d ∈ acc ∨ ∃ k ∈ ks, lookupA k m = some d := by
  induction ks generalizing acc with
  | nil => simp
  | cons k ks ih =>
    rw [List.foldl_cons, ih]
    have hstep : d ∈ (match lookupA k m with
        | some v => if v ∈ acc then acc else acc ++ [v]
        | none => acc) ↔ d ∈ acc ∨ lookupA k m = some d := by
      cases h : lookupA k m with
      | none => simp
      | some v =>
        by_cases hv : v ∈ acc
        · simp only [if_pos hv, Option.some_inj]
          constructor
          · exact fun hd => Or.inl hd
          · rintro (hd | rfl)
            · exact hd
            · exact hv
        · simp only [if_neg hv, List.mem_append, List.mem_singleton, Option.some_inj]
          constructor
          · rintro (hd | rfl)
            · exact Or.inl hd
            · exact Or.inr rfl
          · rintro (hd | rfl)
            · exact Or.inl hd
            · exact Or.inr rfl
    rw [hstep]
    simp only [List.mem_cons]
    constructor
    · rintro ((hd | hk) | ⟨k2, hk2, hl2⟩)
      · exact Or.inl hd
      · exact Or.inr ⟨k, Or.inl rfl, hk⟩
      · exact Or.inr ⟨k2, Or.inr hk2, hl2⟩
    · rintro (hd | ⟨k2, (rfl | hk2), hl2⟩)
      · exact Or.inl (Or.inl hd)
      · exact Or.inl (Or.inr hl2)
      · exact Or.inr ⟨k2, hk2, hl2⟩

/-- Counterexample for C6: in `"top usage was 168.25 kwh"` every number
sits away from any rank keyword — the ordinal-adjacency pattern finds no
match — yet `_extract_rank` returns rank `"highest"` with the defaulted
position 1 (because the bare direction word `"top"` occurs), so rank and
rank_position are not both unset as the claim demands. -/
theorem rank_default_position_cex :
    combinedSearch none (String.data "top usage was 168.25 kwh") = none
    ∧ extract_rank "top usage was 168.25 kwh" = (some "highest", some 1)
    ∧ (some 1 : Option Nat) ≠ none := by
  refine ⟨by decide, by decide, by decide⟩

/-- Claim C6 (amended): a rank slot is produced only from a standalone
rank-direction keyword or from a number/ordinal immediately adjacent to
a rank-indicating word; when neither occurs, rank and rank_position are
both unset (a bare direction keyword alone defaults the position to 1).
The utterance `"today's ac usage was 168.25 kwh"` (lowercased by the
orchestrator) yields `rank=None, rank_position=None`. -/
theorem rank_extraction_amended :
    (∀ t : String, (extract_rank t).2 ≠ none →
        rankHighWords.any (fun w => wordOccurs w t) = true
        ∨ rankLowWords.any (fun w => wordOccurs w t) = true
        ∨ combinedSearch none t.data ≠ none)
    ∧ (∀ t : String,
        rankHighWords.any (fun w => wordOccurs w t) = false →
        rankLowWords.any (fun w => wordOccurs w t) = false →
        combinedSearch none t.data = none →
        extract_rank t = (none, none))
    ∧ extract_rank "today\x27s ac usage was 168.25 kwh" = (none, none) := by
  refine ⟨?_, ?_, by decide⟩
  · intro t h
    by_cases h1 : rankHighWords.any (fun w => wordOccurs w t) = true
    · exact Or.inl h1
    by_cases h2 : rankLowWords.any (fun w => wordOccurs w t) = true
    · exact Or.inr (Or.inl h2)
    by_cases h3 : combinedSearch none t.data = none
    · exfalso
      apply h
      simp only [extract_rank, h3]
      simp [h1, h2]
    · exact Or.inr (Or.inr h3)
  · intro t h1 h2 h3
    simp only [extract_rank, h3]
    simp [h1, h2]

/-- Witness for C6 (amended): the hypotheses hold and the conclusion
evaluates at the claim's own utterance. -/
theorem rank_extraction_amended_witness :
    extract_rank "today\x27s ac usage was 168.25 kwh" = (none, none) :=
  rank_extraction_amended.2.1 "today\x27s ac usage was 168.25 kwh"
    (by decide) (by decide) (by decide)

/-- Claim C7: device matching is word-boundary anchored over the alias
table built from the known device names (keys scanned longest-first): a
device is extracted iff one of its aliases occurs as a whole word in the
utterance; with the fleet `["Living Room AC"]` the alias `"ac"` matches
`"the ac is on"` but neither `"back"` nor `"vacancy"`, and an utterance
mentioning no alias yields the empty set rather than an error. -/
theorem device_matching_word_boundary :
    (∀ (known : List String) (t d : String),
        d ∈ extract_devices t known ↔
          ∃ k, lookupA k (deviceAliasMap known) = some d ∧ wordOccurs k t = true)
    ∧ (∀ known : List String, List.Sorted longerFirst (sortedAliasKeys known))
    ∧ extract_devices "the ac is on" ["Living Room AC"] = ["Living Room AC"]
    ∧ extract_devices "back" ["Living Room AC"] = []
    ∧ extract_devices "vacancy" ["Living Room AC"] = []
    ∧ extract_devices "hello there" ["Living Room AC"] = [] := by
  refine ⟨?_, ?_, by decide, by decide, by decide, by decide⟩
  · intro known t d
    rw [extract_devices, mem_devFold]
    constructor
    · rintro (hd | ⟨k, hk, hl⟩)
      · simp at hd
      · exact ⟨k, hl, (List.mem_filter.mp hk).2⟩
    · rintro ⟨k, hl, hw⟩
      refine Or.inr ⟨k, List.mem_filter.mpr ⟨?_, hw⟩, hl⟩
      rw [sortedAliasKeys, List.mem_insertionSort]
      exact lookupA_some_mem_keys hl
  · intro known
    exact List.sorted_insertionSort longerFirst _

theorem sortDevs_nil (b : Bool) : sortDevs b [] = [] := by
  cases b <;> simp [sortDevs, List.insertionSort]

theorem length_sortDevs (b : Bool) (l : List DevAgg) : (sortDevs b l).length = l.length := by
  cases b <;> simp [sortDevs, List.length_insertionSort]

/-- The processor's reported device is always the head of the sorted
order (rank_num plays no part in `_compute_rank_from_usage`). -/
theorem compute_rank_head (descDir : Bool) (rows : List BucketRow) :
    (compute_rank_from_usage descDir rows).map
        (fun rk => (rk.deviceName, rk.totalEnergyWh / 1000))
      = (sortDevs descDir (aggregateRows rows)).head?.map
          (fun d => (d.deviceName, d.totalEnergyWh / 1000)) := by
  simp only [compute_rank_from_usage]
  split_ifs with h
  · have hnil : aggregateRows rows = [] := by
      simpa [List.isEmpty_iff] using h
    rw [hnil, sortDevs_nil]
    rfl
  · cases hs : sortDevs descDir (aggregateRows rows) with
    | nil =>
      exfalso
      have hlen := length_sortDevs descDir (aggregateRows rows)
      rw [hs] at hlen
      exact h (by simp [List.isEmpty_iff, List.length_eq_zero.mp hlen.symm])
    | cons best restS => simp [hs]

theorem sum_map_pct (l : List DevAgg) (T : Rat) :
    (l.map fun d => d.totalEnergyWh / T * 100).sum
      = (l.map fun d => d.totalEnergyWh).sum / T * 100 := by
  induction l with
  | nil => simp
  | cons x t ih =>
    simp only [List.map_cons, List.sum_cons, ih]
    ring

/-- Counterexample for C3: a freshly dispatched RANKED_DEVICES query
with `rank="highest"`, `rank_position=2` and no usable memory reports
`"B"` — the FIRST element of the descending order — although the element
at index `rank_position − 1 = 1` of that order is `"A"`; the
position-based selection the claim states for every dispatched ranked
query does not happen on the processor path. -/
theorem ranked_selection_ignores_position_cex :
    (handle_ranked_devices_query
        { time := some ⟨"today", 0, 1, "hour", false⟩, devices := none,
          rank := some "highest", rankNum := some 2, summaryRequest := false,
          energyQueryType := some EnergyQueryType.ranked_devices }
        none
        [⟨"dev-a", "A", "t", 1000, 10, 1⟩, ⟨"dev-b", "B", "t", 2000, 20, 1⟩]).map Prod.fst
      = some "B"
    ∧ ((sortDevs true (aggregateRows
          [⟨"dev-a", "A", "t", 1000, 10, 1⟩, ⟨"dev-b", "B", "t", 2000, 20, 1⟩])).map
        (fun d => d.deviceName)).get? (2 - 1) = some "A"
    ∧ ("B" : String) ≠ "A" := by
  refine ⟨?_, ?_, by decide⟩
  · norm_num +decide [handle_ranked_devices_query, isPureRankFollowUp,
      compute_rank_from_usage, aggregateRows, addRow, sortDevs, List.insertionSort,
      List.orderedInsert, descByEnergy]
  · norm_num +decide [aggregateRows, addRow, sortDevs, List.insertionSort,
      List.orderedInsert, descByEnergy]

/-- Claim C3 (amended): per-device window totals are sorted descending
for `"highest"` and ascending for `"lowest"`; the element at index
`rank_position − 1` is reported only on the memory-fulfillment path of
`_handle_ranked_devices_query` (fresh prior `rank` state with unchanged
time/device context and `rank_position` within the stored list); when
`rank_position` exceeds the stored list the handler falls back to the
processor, which reports the first element of the sorted order — it
never fails. -/
theorem ranked_selection_amended :
    (∀ rows : List BucketRow,
        List.Sorted descByEnergy (sortDevs true (aggregateRows rows))
        ∧ List.Sorted ascByEnergy (sortDevs false (aggregateRows rows)))
    ∧ (∀ (p : ParsedSlots) (st : FollowUpState) (rows : List BucketRow) (n : Nat),
        p.rankNum = some n → isPureRankFollowUp p (some st) = true →
        1 ≤ n → n ≤ st.rankedDevices.length →
        handle_ranked_devices_query p (some st) rows
          = (st.rankedDevices.get? (n - 1)).map fun d => (d.name.getD d.deviceId, d.kwh))
    ∧ (∀ (p : ParsedSlots) (st : FollowUpState) (rows : List BucketRow) (n : Nat),
        p.rankNum = some n → st.rankedDevices.length < n →
        (p.rank = some "highest" ∨ p.rank = some "lowest") →
        handle_ranked_devices_query p (some st) rows
          = (sortDevs (decide (p.rank = some "highest")) (aggregateRows rows)).head?.map
              fun d => (d.deviceName, d.totalEnergyWh / 1000)) := by
  refine ⟨?_, ?_, ?_⟩
  · intro rows
    constructor
    · simpa [sortDevs] using List.sorted_insertionSort descByEnergy (aggregateRows rows)
    · simpa [sortDevs] using List.sorted_insertionSort ascByEnergy (aggregateRows rows)
  · intro p st rows n hn hp h1n h2n
    simp only [handle_ranked_devices_query, hn]
    rw [if_pos hp, if_pos (by constructor <;> omega)]
    cases hg : st.rankedDevices.get? (n - 1) with
    | none =>
      exfalso
      have := List.get?_eq_none.mp hg
      omega
    | some tgt => simp [hg]
  · intro p st rows n hn hlen hdir
    simp only [handle_ranked_devices_query, hn]
    have hnomem :
        ¬ (0 ≤ (n : Int) - 1 ∧ (n : Int) - 1 < (st.rankedDevices.length : Int)) := by
      intro hcon
      omega
    by_cases hp : isPureRankFollowUp p (some st) = true
    · rw [if_pos hp, if_neg hnomem, if_pos hdir, ← compute_rank_head]
    · rw [if_neg hp, if_pos hdir, ← compute_rank_head]

/-- Witness for C3 (amended): an in-bounds memory fulfillment returns
the stored second-ranked device, and an out-of-bounds position falls
back to the processor's first-of-sorted-order answer. -/
theorem ranked_selection_amended_witness :
    handle_ranked_devices_query
        { time := some ⟨"today", 0, 1, "hour", false⟩, devices := some [],
          rank := some "highest", rankNum := some 2, summaryRequest := false,
          energyQueryType := some EnergyQueryType.ranked_devices }
        (some { intent := "rank", devices := [], rank := some "highest",
                rankNum := some 1,
                rankedDevices := [⟨"d1", 5, some "Aircon"⟩, ⟨"d2", 3, some "Heater"⟩],
                timeContext := some ⟨"today", 0, 1, "hour", false⟩ })
        [] = some ("Heater", 3)
    ∧ handle_ranked_devices_query
        { time := some ⟨"today", 0, 1, "hour", false⟩, devices := some [],
          rank := some "highest", rankNum := some 5, summaryRequest := false,
          energyQueryType := some EnergyQueryType.ranked_devices }
        (some { intent := "rank", devices := [], rank := some "highest",
                rankNum := some 1,
                rankedDevices := [⟨"d1", 5, some "Aircon"⟩, ⟨"d2", 3, some "Heater"⟩],
                timeContext := some ⟨"today", 0, 1, "hour", false⟩ })
        [⟨"dev-a", "A", "t", 1000, 10, 1⟩, ⟨"dev-b", "B", "t", 2000, 20, 1⟩]
      = some ("B", 2) := by
  constructor
  · have h := ranked_selection_amended.2.1
      { time := some ⟨"today", 0, 1, "hour", false⟩, devices := some [],
        rank := some "highest", rankNum := some 2, summaryRequest := false,
        energyQueryType := some EnergyQueryType.ranked_devices }
      { intent := "rank", devices := [], rank := some "highest", rankNum := some 1,
        rankedDevices := [⟨"d1", 5, some "Aircon"⟩, ⟨"d2", 3, some "Heater"⟩],
        timeContext := some ⟨"today", 0, 1, "hour", false⟩ }
      [] 2 rfl (by decide) (by decide) (by decide)
    rw [h]
    rfl
  · have h := ranked_selection_amended.2.2
      { time := some ⟨"today", 0, 1, "hour", false⟩, devices := some [],
        rank := some "highest", rankNum := some 5, summaryRequest := false,
        energyQueryType := some EnergyQueryType.ranked_devices }
      { intent := "rank", devices := [], rank := some "highest", rankNum := some 1,
        rankedDevices := [⟨"d1", 5, some "Aircon"⟩, ⟨"d2", 3, some "Heater"⟩],
        timeContext := some ⟨"today", 0, 1, "hour", false⟩ }
      [⟨"dev-a", "A", "t", 1000, 10, 1⟩, ⟨"dev-b", "B", "t", 2000, 20, 1⟩]
      5 rfl (by decide) (Or.inl rfl)
    rw [h]
    norm_num +decide [aggregateRows, addRow, sortDevs, List.insertionSort,
      List.orderedInsert, descByEnergy]

/-- Characterization of the comparison payload built by
`_compute_rank_from_usage`: top 3 of the sorted order, percentages over
the grand total of ALL aggregated devices. -/
theorem compute_rank_comparison (descDir : Bool) (rows : List BucketRow) (rk : RankResult)
    (hrk : compute_rank_from_usage descDir rows = some rk)
    (hpos : 0 < fleetTotalWh descDir rows) :
    rk.comparison = ((sortDevs descDir (aggregateRows rows)).take 3).map fun d =>
      { deviceName := d.deviceName, totalEnergyWh := d.totalEnergyWh,
        percentage := d.totalEnergyWh / fleetTotalWh descDir rows * 100 } := by
  have hne : ¬ (aggregateRows rows).isEmpty = true := by
    intro he
    rw [compute_rank_from_usage, if_pos he] at hrk
    exact Option.noConfusion hrk
  cases hs : sortDevs descDir (aggregateRows rows) with
  | nil =>
    exfalso
    have hlen := length_sortDevs descDir (aggregateRows rows)
    rw [hs] at hlen
    exact hne (by simp [List.isEmpty_iff, List.length_eq_zero.mp hlen.symm])
  | cons best restS =>
    rw [compute_rank_from_usage, if_neg hne, hs] at hrk
    have hT : fleetTotalWh descDir rows = ((best :: restS).map fun d => d.totalEnergyWh).sum := by
      rw [fleetTotalWh, hs]
    have hrk2 := Option.some_inj.mp hrk
    rw [← hrk2]
    simp only
    refine List.map_congr_left fun d _ => ?_
    rw [← hT, if_pos hpos]

/-- Counterexample for C4: with the four-device fleet
`A=4, B=3, C=2, D=1` (Wh) every device has positive energy, yet the
returned top-3 comparison percentages sum to 90, not 100 — each
percentage is taken over the whole fleet's total, not over the top-3
total as the claim states. -/
theorem comparison_pct_top3_cex :
    (compute_rank_from_usage true
        [⟨"a", "A", "t", 4, 0, 1⟩, ⟨"b", "B", "t", 3, 0, 1⟩,
         ⟨"c", "C", "t", 2, 0, 1⟩, ⟨"d", "D", "t", 1, 0, 1⟩]).map
        (fun rk => (rk.comparison.map fun e => e.percentage).sum)
      = some 90
    ∧ (90 : Rat) ≠ 100 := by
  constructor
  · norm_num +decide [compute_rank_from_usage, aggregateRows, addRow, sortDevs,
      List.insertionSort, List.orderedInsert, descByEnergy]
  · norm_num

/-- Claim C4 (amended): each top-3 comparison entry carries
`energy / fleet_total × 100` where `fleet_total` is the window total of
ALL aggregated devices, so the returned top-3 percentages sum to
`top3_total / fleet_total × 100` — which is 100% exactly when the fleet
has at most three aggregated devices, as in the claim's
`{A:3.5, B:5.0, C:1.2}` example (selected device B, ≈51.5%). -/
theorem comparison_pct_amended (descDir : Bool) (rows : List BucketRow) (rk : RankResult)
    (hrk : compute_rank_from_usage descDir rows = some rk)
    (hpos : 0 < fleetTotalWh descDir rows) :
    (∀ e ∈ rk.comparison,
        e.percentage = e.totalEnergyWh / fleetTotalWh descDir rows * 100)
    ∧ (rk.comparison.map fun e => e.percentage).sum
        = (((sortDevs descDir (aggregateRows rows)).take 3).map fun d => d.totalEnergyWh).sum
            / fleetTotalWh descDir rows * 100
    ∧ ((aggregateRows rows).length ≤ 3 →
        (rk.comparison.map fun e => e.percentage).sum = 100) := by
  have hcmp := compute_rank_comparison descDir rows rk hrk hpos
  have hsum : (rk.comparison.map fun e => e.percentage).sum
      = (((sortDevs descDir (aggregateRows rows)).take 3).map fun d => d.totalEnergyWh).sum
          / fleetTotalWh descDir rows * 100 := by
    rw [hcmp, List.map_map]
    simp only [Function.comp_def]
    exact sum_map_pct _ _
  refine ⟨?_, hsum, ?_⟩
  · intro e he
    rw [hcmp] at he
    obtain ⟨d, _, rfl⟩ := List.mem_map.mp he
    rfl
  · intro hle
    have htake : (sortDevs descDir (aggregateRows rows)).take 3
        = sortDevs descDir (aggregateRows rows) := by
      apply List.take_of_length_le
      rw [length_sortDevs]
      exact hle
    rw [hsum, htake,
      show (((sortDevs descDir (aggregateRows rows)).map fun d => d.totalEnergyWh).sum
          = fleetTotalWh descDir rows) from rfl,
      div_self (ne_of_gt hpos), one_mul]

/-- Witness for C4 (amended): the claim's `{A:3.5, B:5.0, C:1.2}` kWh
fleet (as Wh rows), where the selected device is B with `5000/97 ≈
51.5%` and the three returned percentages do sum to 100. -/
theorem comparison_pct_amended_witness :
    (0 : Rat) < fleetTotalWh true
        [⟨"a", "A", "t", 3500, 0, 1⟩, ⟨"b", "B", "t", 5000, 0, 1⟩, ⟨"c", "C", "t", 1200, 0, 1⟩]
    ∧ compute_rank_from_usage true
        [⟨"a", "A", "t", 3500, 0, 1⟩, ⟨"b", "B", "t", 5000, 0, 1⟩, ⟨"c", "C", "t", 1200, 0, 1⟩]
      = some
        { deviceId := "b", deviceName := "B", totalEnergyWh := 5000, avgPowerW := 0,
          percentageOfTotal := 5000 / 97,
          comparison := [⟨"B", 5000, 5000 / 97⟩, ⟨"A", 3500, 3500 / 97⟩,
                         ⟨"C", 1200, 1200 / 97⟩] }
    ∧ (([⟨"B", 5000, 5000 / 97⟩, ⟨"A", 3500, 3500 / 97⟩,
         ⟨"C", 1200, 1200 / 97⟩] : List ComparisonEntry).map fun e => e.percentage).sum
      = 100 := by
  have hpos : (0 : Rat) < fleetTotalWh true
      [⟨"a", "A", "t", 3500, 0, 1⟩, ⟨"b", "B", "t", 5000, 0, 1⟩,
       ⟨"c", "C", "t", 1200, 0, 1⟩] := by
    norm_num +decide [fleetTotalWh, aggregateRows, addRow, sortDevs,
      List.insertionSort, List.orderedInsert, descByEnergy]
  have hrk : compute_rank_from_usage true
      [⟨"a", "A", "t", 3500, 0, 1⟩, ⟨"b", "B", "t", 5000, 0, 1⟩,
       ⟨"c", "C", "t", 1200, 0, 1⟩]
      = some
        { deviceId := "b", deviceName := "B", totalEnergyWh := 5000, avgPowerW := 0,
          percentageOfTotal := 5000 / 97,
          comparison := [⟨"B", 5000, 5000 / 97⟩, ⟨"A", 3500, 3500 / 97⟩,
                         ⟨"C", 1200, 1200 / 97⟩] } := by
    norm_num +decide [compute_rank_from_usage, aggregateRows, addRow, sortDevs,
      List.insertionSort, List.orderedInsert, descByEnergy]
  refine ⟨hpos, hrk, ?_⟩
  have h := (comparison_pct_amended true
      [⟨"a", "A", "t", 3500, 0, 1⟩, ⟨"b", "B", "t", 5000, 0, 1⟩,
       ⟨"c", "C", "t", 1200, 0, 1⟩] _ hrk hpos).2.2
  have hlen : (aggregateRows
      [⟨"a", "A", "t", 3500, 0, 1⟩, ⟨"b", "B", "t", 5000, 0, 1⟩,
       ⟨"c", "C", "t", 1200, 0, 1⟩]).length ≤ 3 := by
    norm_num +decide [aggregateRows, addRow]
  simpa using h hlen

end EnergyApp
